import Mathlib

/-!
Verification development for the harmonic-playground repository.

The tension engine (src/engine.ts), the dwell gate and continuous pitch
mapper (mic-enabled main module), and the chord classifier (src/audio.ts)
are shallowly embedded below.  JavaScript numbers appearing in exact
arithmetic (tension bookkeeping, frame counters, scores) are modelled as
rationals; the pitch mapper, whose input passes through a real logarithm,
is modelled over the reals.  A JS `Map` is modelled as an association list
in insertion order, since `playNote` iterates entries in that order.
-/

namespace Harmonic

/-! ## Tension engine (src/engine.ts) -/

/-- The `homeness` record of engine.ts.  A lookup at a degree outside the
seven keys yields JS `undefined`, modelled as `none`. -/
def homeness (d : Nat) : Option ℚ :=
  if d = 1 then some 1
  else if d = 3 then some (7/10)
  else if d = 5 then some (7/10)
  else if d = 6 then some (2/5)
  else if d = 2 then some (3/10)
  else if d = 4 then some (1/5)
  else if d = 7 then some (1/10)
  else none

/-- The `resolvesTo` record of engine.ts; a missing key (degrees 1, 3, 5 and
out-of-range degrees) behaves as an empty target list, because the source
guards the lookup with `targets && targets.includes(degree)`. -/
def resolvesTo (d : Nat) : List Nat :=
  if d = 7 then [1]
  else if d = 4 then [3]
  else if d = 2 then [1, 3]
  else if d = 6 then [5, 1]
  else []

/-- The `direction` field of the engine state. -/
inductive Direction
  | toward
  | away
  | none
  deriving DecidableEq, Repr

/-- Engine `State`: `tensions` is a JS `Map<number, number>` kept as an
association list in insertion order. -/
structure State where
  lastNote : Option Nat
  direction : Direction
  tensions : List (Nat × ℚ)
  deriving DecidableEq, Repr

/-- `createInitialState` of engine.ts. -/
def createInitialState : State :=
  { lastNote := Option.none, direction := Direction.none, tensions := [] }

/-- The `Resolution` type of engine.ts: it has exactly two fields, `from`
and `to` (no amount and no pull strength appear anywhere in the source). -/
structure Resolution where
  fromDeg : Nat
  toDeg : Nat
  deriving DecidableEq, Repr

/-- JS `Map.get` (`undefined` as `none`). -/
def mapGet (m : List (Nat × ℚ)) (k : Nat) : Option ℚ :=
  (m.find? (fun p => p.1 == k)).map Prod.snd

/-- JS `Map.set`: overwrite in place when the key exists (keeping its
insertion position), otherwise append at the end. -/
def mapSet (m : List (Nat × ℚ)) (k : Nat) (v : ℚ) : List (Nat × ℚ) :=
  match m with
  | [] => [(k, v)]
  | (k0, v0) :: rest => if k0 = k then (k0, v) :: rest else (k0, v0) :: mapSet rest k v

/-- The condition of the resolution loop in `playNote`:
`targets && targets.includes(degree) && amount > 0`. -/
def resolves (degree : Nat) (p : Nat × ℚ) : Bool :=
  (resolvesTo p.1).contains degree && decide (0 < p.2)

/-- The `for (const [tenseDegree, amount] of state.tensions)` loop of
`playNote`: every matching entry is deleted from the map, and the single
`resolution` variable is overwritten by each match, so the call reports
only the last matching entry in insertion order. -/
def resolvePass (degree : Nat) : List (Nat × ℚ) → List (Nat × ℚ) × Option Resolution
  | [] => ([], Option.none)
  | p :: rest =>
    let tail := resolvePass degree rest
    if resolves degree p then
      (tail.1, some (tail.2.getD ⟨p.1, degree⟩))
    else
      (p :: tail.1, tail.2)

/-- `playNote` of engine.ts.  The JS comparison `noteHomeness < 0.5` is
false when the lookup returned `undefined`, and both direction comparisons
are false when either homeness lookup is `undefined`. -/
def playNote (s : State) (degree : Nat) : State × Option Resolution :=
  let pass := resolvePass degree s.tensions
  let tensions1 :=
    match homeness degree with
    | some h =>
      if h < 1/2 then
        let currentTension := (mapGet pass.1 degree).getD 0
        mapSet pass.1 degree (min 1 (currentTension + (1 - h)))
      else pass.1
    | Option.none => pass.1
  let dir :=
    match s.lastNote with
    | Option.none => s.direction
    | some last =>
      match homeness last, homeness degree with
      | some lastH, some thisH =>
        if lastH < thisH then Direction.toward
        else if thisH < lastH then Direction.away
        else Direction.none
      | _, _ => Direction.none
  ({ lastNote := some degree, direction := dir, tensions := tensions1 }, pass.2)

/-- The decay rate constant of `decay` (0.15). -/
def decayRate : ℚ := 3/20

/-- `decay` of engine.ts: each entry loses `decayRate * deltaTime` clamped
at zero, and entries that fall below 0.01 are deleted. -/
def decay (s : State) (deltaTime : ℚ) : State :=
  { s with
    tensions := s.tensions.filterMap (fun p =>
      let newTension := max 0 (p.2 - decayRate * deltaTime)
      if newTension < 1/100 then Option.none else some (p.1, newTension)) }

/-- `getTotalTension` of engine.ts: `min(1, total / 3)`. -/
def getTotalTension (s : State) : ℚ :=
  min 1 ((s.tensions.map Prod.snd).sum / 3)

/-- One engine call in a session: a `playNote` or a `decay` tick. -/
inductive Op
  | play (degree : Nat)
  | tick (deltaTime : ℚ)
  deriving DecidableEq, Repr

/-- Apply one engine call to the state. -/
def runOp (s : State) : Op → State
  | Op.play d => (playNote s d).1
  | Op.tick dt => decay s dt

/-- Run a sequence of engine calls from the initial empty state. -/
def run (ops : List Op) : State :=
  ops.foldl runOp createInitialState

/-- Validity of a call for the clamp invariant: a decay tick carries a
non-negative elapsed time (`deltaTime` is a time difference). -/
def opOk : Op → Bool
  | Op.play _ => true
  | Op.tick dt => decide (0 ≤ dt)

/-- Validity of a call for the key-set invariant: degrees lie in 1..7 and
decay ticks carry non-negative elapsed time. -/
def opOk17 : Op → Bool
  | Op.play d => decide (1 ≤ d ∧ d ≤ 7)
  | Op.tick dt => decide (0 ≤ dt)

/-- The state invariant maintained by the engine: every tracked entry sits
on one of the unstable degrees 2, 4, 6, 7 and holds a tension in (0, 1]. -/
def Inv (s : State) : Prop :=
  ∀ p ∈ s.tensions, (p.1 = 2 ∨ p.1 = 4 ∨ p.1 = 6 ∨ p.1 = 7) ∧ 0 < p.2 ∧ p.2 ≤ 1

/-! ## Dwell detector (mic-enabled main module, `updateBurningLight`) -/

/-- `DWELL_THRESHOLD_MS = 150` of the mic-enabled main module. -/
def DWELL_THRESHOLD_MS : ℚ := 150

/-- The dwell-tracking module state: `dwellDegree` and `dwellStartTime`. -/
structure DwellState where
  dwellDegree : Option Nat
  dwellStartTime : ℚ
  deriving DecidableEq, Repr

/-- Initial dwell state (`dwellDegree = null`, `dwellStartTime = 0`). -/
def initDwell : DwellState := { dwellDegree := Option.none, dwellStartTime := 0 }

/-- The dwell-detection block of `updateBurningLight`, for one frame in
which a pitch was detected: `now` is the frame timestamp and `deg` is
`rawPos.degree`.  The returned flag records whether the tension engine was
activated (`playNote` called) on this frame. -/
def dwellStep (s : DwellState) (now : ℚ) (deg : Option Nat) : DwellState × Bool :=
  match deg with
  | some d =>
    if s.dwellDegree = some d then
      if DWELL_THRESHOLD_MS ≤ now - s.dwellStartTime then
        ({ s with dwellDegree := Option.none }, true)
      else (s, false)
    else ({ dwellDegree := some d, dwellStartTime := now }, false)
  | Option.none => ({ s with dwellDegree := Option.none }, false)

/-- Run the dwell gate over a list of (timestamp, mapped degree) frames,
counting tension-engine activations. -/
def runDwell (frames : List (ℚ × Option Nat)) : DwellState × Nat :=
  frames.foldl
    (fun acc f =>
      let step := dwellStep acc.1 f.1 f.2
      (step.1, acc.2 + if step.2 then 1 else 0))
    (initDwell, 0)

/-! ## Pitch mapper (`hzToPosition` of the mic-enabled main module)

The mapper is modelled over the reals: the positions involve cosines and
the semitone computation involves a base-2 logarithm, so these definitions
are noncomputable, while every branching decision is on explicitly given
real comparisons. -/

/-- A JS number as seen by the `hzToPosition` guard: a finite value or one
of the three non-finite values. -/
inductive JSNum
  | finite (val : ℝ)
  | nan
  | posInf
  | negInf

/-- The guard condition `!hz || hz <= 0 || !isFinite(hz)`: truthiness
rejects 0 and NaN, `hz <= 0` rejects non-positive values, and `isFinite`
rejects the infinities. -/
def badHz : JSNum → Prop
  | JSNum.finite v => v ≤ 0
  | _ => True

/-- The `nodeAngles` record of engine.ts (degrees of arc per node). -/
def nodeAngle (d : Nat) : ℚ :=
  if d = 1 then 0
  else if d = 3 then 120
  else if d = 5 then 60
  else if d = 4 then 210
  else if d = 2 then 270
  else if d = 6 then 330
  else if d = 7 then 165
  else 0

/-- A 2-D point. -/
structure Pt where
  x : ℝ
  y : ℝ

/-- `calculateNodePosition` of engine.ts (only ever applied to degrees
1..7, where `homeness` is defined). -/
noncomputable def calculateNodePosition (d : Nat) : Pt :=
  let home : ℚ := (homeness d).getD 0
  let distance : ℝ := (1 - (home : ℝ)) * 30
  let angleRad : ℝ := (nodeAngle d : ℝ) * Real.pi / 180
  { x := 50 + Real.cos angleRad * distance, y := 50 + Real.sin angleRad * distance }

/-- The precomputed `nodePositions` table of engine.ts. -/
noncomputable def nodePositions (d : Nat) : Pt := calculateNodePosition d

/-- The `PitchPosition` result record of `hzToPosition`. -/
structure PitchPosition where
  x : ℝ
  y : ℝ
  inKey : Bool
  degree : Option Nat
  adjacentDegrees : List Nat

/-- The neutral center fallback of `hzToPosition`. -/
def neutralPosition : PitchPosition :=
  { x := 50, y := 50, inKey := true, degree := Option.none, adjacentDegrees := [] }

/-- The `scaleDegrees` table of `hzToPosition`: (semitone, degree). -/
def scaleDegrees : List (ℚ × Nat) :=
  [(0, 1), (2, 2), (4, 3), (5, 4), (7, 5), (9, 6), (11, 7)]

/-- The bracket-search loop of `hzToPosition`: starting from
`lower = B (11,7)`, `upper = C (0,1)`, every entry whose semitone is at
most `oct` replaces `lower`, with `upper` the cyclically next entry. -/
noncomputable def findBracket (oct : ℝ) : (ℚ × Nat) × (ℚ × Nat) :=
  (scaleDegrees.zip (scaleDegrees.rotateLeft 1)).foldl
    (fun acc pr => if ((pr.1.1 : ℚ) : ℝ) ≤ oct then pr else acc)
    ((11, 7), (0, 1))

/-- The tail of `hzToPosition` from the octave-folded semitone value on:
bracket search, wrap handling, the 0.25-semitone in-key snap, and the
chromatic linear interpolation. -/
noncomputable def positionFromOctave (oct : ℝ) : PitchPosition :=
  let br := findBracket oct
  let lower := br.1
  let upper := br.2
  let dtl0 : ℝ := oct - (lower.1 : ℝ)
  let distToLower : ℝ := if dtl0 < 0 then dtl0 + 12 else dtl0
  let gap0 : ℚ := upper.1 - lower.1
  let gap : ℚ := if gap0 ≤ 0 then gap0 + 12 else gap0
  let t : ℝ := distToLower / (gap : ℝ)
  let distToNearest : ℝ := min distToLower ((gap : ℝ) - distToLower)
  if distToNearest < 1/4 then
    let nearest := if distToLower < (gap : ℝ) - distToLower then lower else upper
    let pos := nodePositions nearest.2
    { x := pos.x, y := pos.y, inKey := true, degree := some nearest.2, adjacentDegrees := [] }
  else
    let lowerPos := nodePositions lower.2
    let upperPos := nodePositions upper.2
    { x := lowerPos.x + (upperPos.x - lowerPos.x) * t,
      y := lowerPos.y + (upperPos.y - lowerPos.y) * t,
      inKey := false, degree := Option.none, adjacentDegrees := [lower.2, upper.2] }

/-- JS truncation toward zero (the integer part used by the `%` operator). -/
noncomputable def jsTrunc (x : ℝ) : ℤ :=
  if 0 ≤ x then ⌊x⌋ else ⌈x⌉

/-- The JS remainder operator `a % b` on finite numbers. -/
noncomputable def jsMod (a b : ℝ) : ℝ :=
  a - b * (jsTrunc (a / b) : ℝ)

/-- `hzToPosition` of the mic-enabled main module.  The guard handles
non-finite and non-positive input; otherwise the semitone offset is
`12 * log2(hz / rootHz)`, folded to one octave with the `>11.5` wrap, and
handed to the bracket/snap/interpolation tail.  (The JS `isFinite` check
on `semitones` cannot fire in the real-number model: the logarithm of a
positive real is finite.) -/
noncomputable def hzToPosition (rootHz : ℝ) (hz : JSNum) : PitchPosition :=
  match hz with
  | JSNum.nan => neutralPosition
  | JSNum.posInf => neutralPosition
  | JSNum.negInf => neutralPosition
  | JSNum.finite v =>
    if v ≤ 0 then neutralPosition
    else
      let semitones : ℝ := 12 * Real.logb 2 (v / rootHz)
      let octA := jsMod semitones 12
      let oct0 := jsMod (octA + 12) 12
      let oct := if (11.5 : ℝ) < oct0 then 0 else oct0
      positionFromOctave oct

/-! ## Chord classifier (src/audio.ts) -/

/-- A chord template / pattern: name, member degrees, quality. -/
structure TemplateT where
  name : String
  degrees : List Nat
  quality : String
  deriving DecidableEq, Repr

/-- The `chordTemplates` table of src/audio.ts (template strategy). -/
def chordTemplates : List TemplateT :=
  [⟨"I", [1, 3, 5], "major"⟩,
   ⟨"ii", [2, 4, 6], "minor"⟩,
   ⟨"iii", [3, 5, 7], "minor"⟩,
   ⟨"IV", [4, 6, 1], "major"⟩,
   ⟨"V", [5, 7, 2], "major"⟩,
   ⟨"vi", [6, 1, 3], "minor"⟩,
   ⟨"vii°", [7, 2, 4], "dim"⟩,
   ⟨"V7", [5, 7, 2, 4], "7"⟩]

/-- The `CHORD_PATTERNS` table of src/audio.ts (model strategy). -/
def CHORD_PATTERNS : List TemplateT :=
  [⟨"I", [1, 3, 5], "major"⟩,
   ⟨"ii", [2, 4, 6], "minor"⟩,
   ⟨"iii", [3, 5, 7], "minor"⟩,
   ⟨"IV", [4, 6, 1], "major"⟩,
   ⟨"V", [5, 7, 2], "major"⟩,
   ⟨"vi", [6, 1, 3], "minor"⟩,
   ⟨"vii°", [7, 2, 4], "dim"⟩,
   ⟨"sus4", [1, 4, 5], "sus"⟩,
   ⟨"sus2", [1, 2, 5], "sus"⟩,
   ⟨"maj7", [1, 3, 5, 7], "major"⟩,
   ⟨"V7", [5, 7, 2, 4], "7"⟩]

/-- `FRAMES_TO_ESTABLISH = 6`. -/
def FRAMES_TO_ESTABLISH : Nat := 6

/-- `HYSTERESIS_BONUS = 0.08`. -/
def HYSTERESIS_BONUS : ℚ := 8/100

/-- The mutable chord-classification state of src/audio.ts.  The JS frame
counters start at 0, are incremented, and are clamped with `max(0, ...)`,
so they are modelled as naturals (truncated subtraction is exactly
`max(0, n - k)`). -/
structure ChordState where
  currentChord : Option String
  currentChordQuality : Option String
  currentChordFrames : Nat
  candidateChord : Option String
  candidateFrames : Nat
  deriving DecidableEq, Repr

/-- The all-clear initial classification state. -/
def initChordState : ChordState :=
  { currentChord := Option.none, currentChordQuality := Option.none,
    currentChordFrames := 0, candidateChord := Option.none, candidateFrames := 0 }

/-- A `{name, score, quality}` result of `matchChordTemplate`. -/
structure MatchResult where
  name : String
  score : ℚ
  quality : String
  deriving DecidableEq, Repr

/-- A `{name, quality}` result of `matchDegreePattern`. -/
structure ChordLabel where
  name : String
  quality : String
  deriving DecidableEq, Repr

/-- The per-template score of `matchChordTemplate`: mean energy at the
template's degrees, minus 0.3 times the mean energy at the other degrees,
plus the hysteresis bonus when the template is the current chord.
`scores` is the 1-indexed `degreeScores` array (index 0 unused). -/
def templateScore (scores : List ℚ) (current : Option String) (t : TemplateT) : ℚ :=
  let chordEnergy := (t.degrees.map (fun d => scores.getD d 0)).sum / (t.degrees.length : ℚ)
  let nonChord := (List.range' 1 7).filter (fun d => !(t.degrees.contains d))
  let nonChordSum := (nonChord.map (fun d => scores.getD d 0)).sum
  let nonChordEnergy := if nonChord.length = 0 then nonChordSum else nonChordSum / (nonChord.length : ℚ)
  let base := chordEnergy - nonChordEnergy * (3/10)
  if current = some t.name then base + HYSTERESIS_BONUS else base

/-- The best-scoring result.  The source sorts the result list by
descending score with JS's stable sort and takes the first element, which
is the earliest entry attaining the maximal score; the fold below keeps
the current best unless a strictly greater score appears, which selects
the same entry. -/
def bestResult (results : List MatchResult) : Option MatchResult :=
  results.foldl
    (fun best r =>
      match best with
      | some b => if b.score < r.score then some r else some b
      | Option.none => some r)
    Option.none

/-- `matchChordTemplate` of src/audio.ts: score every template (with the
stickiness bonus for `current`), take the best, and reject it unless its
score exceeds 0.25. -/
def matchChordTemplate (scores : List ℚ) (current : Option String) : Option MatchResult :=
  let results := chordTemplates.map (fun t => MatchResult.mk t.name (templateScore scores current t) t.quality)
  match bestResult results with
  | some b => if 1/4 < b.score then some b else Option.none
  | Option.none => Option.none

/-- The `keyOffsets` record of `detectWithTemplates`; the source falls
back to 0 (`|| 0`) for a missing key, and the entry for C is itself 0. -/
def keyOffsetOf (key : String) : Nat :=
  if key = "A" then 9
  else if key = "A#" then 10
  else if key = "B" then 11
  else if key = "C" then 0
  else if key = "C#" then 1
  else if key = "D" then 2
  else if key = "D#" then 3
  else if key = "E" then 4
  else if key = "F" then 5
  else if key = "F#" then 6
  else if key = "G" then 7
  else if key = "G#" then 8
  else 0

/-- `majorScaleIntervals = [0,2,4,5,7,9,11]`. -/
def majorScaleIntervals : List Nat := [0, 2, 4, 5, 7, 9, 11]

/-- The 1-indexed `degreeScores` array built by `detectWithTemplates`:
index 0 unused, index d holds `hpcp[(keyOffset + semitone(d)) % 12]`. -/
def degreeScores (key : String) (hpcp : List ℚ) : List ℚ :=
  0 :: (List.range' 1 7).map
    (fun degree => hpcp.getD ((keyOffsetOf key + majorScaleIntervals.getD (degree - 1) 0) % 12) 0)

/-- The hysteresis block of `detectWithTemplates` in src/audio.ts, as a
function of the template-match result for the frame.  In the no-match
branch the JS `Math.max(0, n - k)` clamps are naturals' truncated
subtraction; `currentChordFrames` falls by 2 and `candidateFrames` by 1,
and the current chord clears when its counter bottoms out —
`candidateChord` is NOT cleared. -/
def templatesHysteresis (m : Option MatchResult) (s : ChordState) : ChordState :=
  match m with
  | some m =>
    if s.candidateChord = some m.name then
      let cf := s.candidateFrames + 1
      if FRAMES_TO_ESTABLISH ≤ cf then
        { currentChord := some m.name, currentChordQuality := some m.quality,
          currentChordFrames := 1, candidateChord := Option.none, candidateFrames := 0 }
      else { s with candidateFrames := cf }
    else if s.currentChord ≠ some m.name then
      { s with candidateChord := some m.name, candidateFrames := 1 }
    else
      { s with currentChordFrames := s.currentChordFrames + 1 }
  | Option.none =>
    let ccf := s.currentChordFrames - 2
    let cf := s.candidateFrames - 1
    if ccf = 0 then
      { currentChord := Option.none, currentChordQuality := Option.none,
        currentChordFrames := ccf, candidateChord := s.candidateChord, candidateFrames := cf }
    else
      { s with currentChordFrames := ccf, candidateFrames := cf }

/-- `detectWithTemplates` of src/audio.ts (the hysteresis part; the
returned degree list for visualization is omitted as it does not touch
the classification state). -/
def detectWithTemplates (key : String) (hpcp : List ℚ) (s : ChordState) : ChordState :=
  templatesHysteresis (matchChordTemplate (degreeScores key hpcp) s.currentChord) s

/-- The threshold loop of `detectWithModel`: degrees `i+1` for each of the
model's 7 sigmoid outputs above 0.65. -/
def degreesFromProbs (probs : List ℚ) : List Nat :=
  (List.range 7).filterMap (fun i => if 65/100 < probs.getD i 0 then some (i + 1) else Option.none)

/-- The precision/recall blend of `matchDegreePattern`. -/
def patternScore (degrees : List Nat) (p : TemplateT) : ℚ :=
  let matchCount := ((degrees.filter (fun d => p.degrees.contains d)).length : ℚ)
  let precisionPart := matchCount / (degrees.length : ℚ)
  let recallPart := matchCount / (p.degrees.length : ℚ)
  (precisionPart + recallPart) / 2

/-- `degrees.join('-')`. -/
def joinDash : List Nat → String
  | [] => ""
  | [d] => toString d
  | d :: rest => toString d ++ "-" ++ joinDash rest

/-- `matchDegreePattern` of src/audio.ts: the JS loop keeps the first
pattern attaining the maximal blended score (`if (score > bestScore)`),
and falls back to an "unknown" label naming the raw degree list when the
best score is below 0.6. -/
def matchDegreePattern (degrees : List Nat) : Option ChordLabel :=
  if degrees.length = 0 then Option.none
  else
    let best := CHORD_PATTERNS.foldl
      (fun (acc : String × ℚ × String) p =>
        let score := patternScore degrees p
        if acc.2.1 < score then (p.name, score, p.quality) else acc)
      ("", 0, "")
    if best.2.1 < 3/5 then some ⟨joinDash degrees, "unknown"⟩
    else some ⟨best.1, best.2.2⟩

/-- The hysteresis block of `detectWithModel` in src/audio.ts, as a
function of the pattern-match result for the frame.  It differs from the
template path: establishment also fires when the matched label already
equals the current chord, `currentChordFrames` is incremented rather than
reset on establishment, and in the no-match branch both counters fall by
only 1. -/
def modelHysteresis (m : Option ChordLabel) (s : ChordState) : ChordState :=
  match m with
  | some m =>
    if s.candidateChord = some m.name then
      let cf := s.candidateFrames + 1
      if FRAMES_TO_ESTABLISH ≤ cf ∨ s.currentChord = some m.name then
        { currentChord := some m.name, currentChordQuality := some m.quality,
          currentChordFrames := s.currentChordFrames + 1,
          candidateChord := Option.none, candidateFrames := 0 }
      else { s with candidateFrames := cf }
    else if s.currentChord ≠ some m.name then
      { s with candidateChord := some m.name, candidateFrames := 1 }
    else
      { s with currentChordFrames := s.currentChordFrames + 1 }
  | Option.none =>
    let cf := s.candidateFrames - 1
    let ccf := s.currentChordFrames - 1
    if ccf = 0 then
      { currentChord := Option.none, currentChordQuality := Option.none,
        currentChordFrames := ccf, candidateChord := s.candidateChord, candidateFrames := cf }
    else
      { s with candidateFrames := cf, currentChordFrames := ccf }

/-- `detectWithModel` of src/audio.ts, parametrized by the 7 per-degree
probabilities produced by the external trained model (the TensorFlow
inference itself is an external asset call). -/
def detectWithModel (probs : List ℚ) (s : ChordState) : ChordState :=
  modelHysteresis (matchDegreePattern (degreesFromProbs probs)) s

/-- Run the template-strategy classifier over a list of hpcp frames. -/
def runTemplates (key : String) (frames : List (List ℚ)) : ChordState :=
  frames.foldl (fun s f => detectWithTemplates key f s) initChordState

/-- An hpcp frame carrying a clean C-major (I) triad: full energy at
pitch classes 0 (C), 4 (E) and 7 (G). -/
def hpcpI : List ℚ := [1, 0, 0, 0, 1, 0, 0, 1, 0, 0, 0, 0]

/-- An hpcp frame carrying a clean G-major (V) triad: full energy at
pitch classes 7 (G), 11 (B) and 2 (D). -/
def hpcpV : List ℚ := [0, 0, 1, 0, 0, 0, 0, 1, 0, 0, 0, 1]

/-- A silent hpcp frame (no template matches it). -/
def hpcpZero : List ℚ := [0, 0, 0, 0, 0, 0, 0, 0, 0, 0, 0, 0]

/-! ## Concrete engine states used in the claims -/

/-- A state with tension 0.6 stored on degree 7. -/
def stateT7 : State :=
  { lastNote := Option.none, direction := Direction.none, tensions := [(7, 3/5)] }

/-- A state with tension 0.3 stored on degree 7. -/
def stateT7small : State :=
  { lastNote := Option.none, direction := Direction.none, tensions := [(7, 3/10)] }

/-- A state with tension 0.6 on degree 7 and 0.4 on degree 6. -/
def stateT76 : State :=
  { lastNote := Option.none, direction := Direction.none, tensions := [(7, 3/5), (6, 2/5)] }

/-- A state with a sub-threshold tension 0.005 stored on degree 7. -/
def stateT7eps : State :=
  { lastNote := Option.none, direction := Direction.none, tensions := [(7, 1/200)] }

/-! ## Helper lemmas for the tension engine -/

theorem getLast?_cons_eq {α : Type} (a : α) (l : List α) :
    (a :: l).getLast? = some (l.getLast?.getD a) := by
  induction l generalizing a with
  | nil => rfl
  | cons b t ih =>
    rw [List.getLast?_cons_cons, ih b]
    rfl

theorem mapGet_mem {m : List (Nat × ℚ)} {k : Nat} {v : ℚ} (h : mapGet m k = some v) :
    ∃ p ∈ m, p.2 = v := by
  unfold mapGet at h
  obtain ⟨p, hf, hv⟩ := Option.map_eq_some'.mp h
  exact ⟨p, List.mem_of_find?_eq_some hf, hv⟩

theorem mapSet_mem {m : List (Nat × ℚ)} {k : Nat} {v : ℚ} {p : Nat × ℚ}
    (h : p ∈ mapSet m k v) : p ∈ m ∨ p = (k, v) := by
  induction m with
  | nil =>
    simp only [mapSet, List.mem_singleton] at h
    exact Or.inr h
  | cons q rest ih =>
    rcases q with ⟨k0, v0⟩
    simp only [mapSet] at h
    split_ifs at h with hk
    · rcases List.mem_cons.mp h with h | h
      · exact Or.inr (by rw [h, hk])
      · exact Or.inl (List.mem_cons_of_mem _ h)
    · rcases List.mem_cons.mp h with h | h
      · exact Or.inl (h ▸ List.mem_cons_self _ _)
      · rcases ih h with h2 | h2
        · exact Or.inl (List.mem_cons_of_mem _ h2)
        · exact Or.inr h2

theorem resolvePass_eq (d : Nat) (l : List (Nat × ℚ)) :
    resolvePass d l =
      (l.filter (fun p => !(resolves d p)),
       ((l.filter (fun p => resolves d p)).getLast?).map (fun p => Resolution.mk p.1 d)) := by
  induction l with
  | nil => rfl
  | cons p rest ih =>
    simp only [resolvePass, ih, List.filter_cons]
    cases hp : resolves d p with
    | false => simp [hp]
    | true =>
      simp only [hp, Bool.not_true, if_true, Bool.false_eq_true, if_false, getLast?_cons_eq]
      cases (rest.filter (fun p => resolves d p)).getLast? <;> simp

theorem resolvePass_subset {d : Nat} {l : List (Nat × ℚ)} {p : Nat × ℚ}
    (h : p ∈ (resolvePass d l).1) : p ∈ l := by
  rw [resolvePass_eq] at h
  exact List.mem_of_mem_filter h

theorem not_self_resolvesTo (d : Nat) : (resolvesTo d).contains d = false := by
  unfold resolvesTo
  split_ifs <;> subst_vars <;> rfl

theorem resolvesTo_mem {t x : Nat} (hx : x ∈ resolvesTo t) : x = 1 ∨ x = 3 ∨ x = 5 := by
  unfold resolvesTo at hx
  split_ifs at hx <;> simp_all <;> tauto

theorem homeness_out {d : Nat} (h : d = 0 ∨ 8 ≤ d) : homeness d = Option.none := by
  unfold homeness
  rw [if_neg (by omega), if_neg (by omega), if_neg (by omega), if_neg (by omega),
    if_neg (by omega), if_neg (by omega), if_neg (by omega)]

theorem resolves_out {d : Nat} (h : d = 0 ∨ 8 ≤ d) (p : Nat × ℚ) : resolves d p = false := by
  unfold resolves
  have hc : (resolvesTo p.1).contains d = false := by
    by_contra hcon
    rw [Bool.not_eq_false] at hcon
    rcases resolvesTo_mem (List.mem_of_elem_eq_true hcon) with h1 | h1 | h1 <;> omega
  rw [hc, Bool.false_and]

theorem resolvePass_out {d : Nat} (h : d = 0 ∨ 8 ≤ d) (l : List (Nat × ℚ)) :
    resolvePass d l = (l, Option.none) := by
  rw [resolvePass_eq]
  have h1 : l.filter (fun p => !(resolves d p)) = l :=
    List.filter_eq_self.mpr (fun p _ => by rw [resolves_out h p]; rfl)
  have h2 : l.filter (fun p => resolves d p) = [] :=
    List.filter_eq_nil_iff.mpr (fun p _ => by rw [resolves_out h p]; exact Bool.false_ne_true)
  rw [h1, h2]
  rfl

theorem homeness_unstable {d : Nat} {q : ℚ} (hh : homeness d = some q) (hq : q < 1/2) :
    d = 2 ∨ d = 4 ∨ d = 6 ∨ d = 7 := by
  have hd : d = 1 ∨ d = 2 ∨ d = 3 ∨ d = 4 ∨ d = 5 ∨ d = 6 ∨ d = 7 := by
    by_contra hcon
    push_neg at hcon
    rw [homeness_out (by omega)] at hh
    cases hh
  rcases hd with rfl | rfl | rfl | rfl | rfl | rfl | rfl
  · rw [show homeness 1 = some 1 from rfl] at hh
    injection hh with e; subst e; norm_num at hq
  · exact Or.inl rfl
  · rw [show homeness 3 = some (7/10) from rfl] at hh
    injection hh with e; subst e; norm_num at hq
  · exact Or.inr (Or.inl rfl)
  · rw [show homeness 5 = some (7/10) from rfl] at hh
    injection hh with e; subst e; norm_num at hq
  · exact Or.inr (Or.inr (Or.inl rfl))
  · exact Or.inr (Or.inr (Or.inr rfl))

theorem inv_playNote (s : State) (d : Nat) (hs : Inv s) : Inv (playNote s d).1 := by
  intro p hp
  have hkept : ∀ q ∈ (resolvePass d s.tensions).1,
      (q.1 = 2 ∨ q.1 = 4 ∨ q.1 = 6 ∨ q.1 = 7) ∧ 0 < q.2 ∧ q.2 ≤ 1 :=
    fun q hq => hs q (resolvePass_subset hq)
  simp only [playNote] at hp
  split at hp
  case _ q hh =>
    split_ifs at hp with hq
    · rcases mapSet_mem hp with hmem | heq
      · exact hkept _ hmem
      · have hcur : 0 ≤ (mapGet (resolvePass d s.tensions).1 d).getD 0 := by
          cases hget : mapGet (resolvePass d s.tensions).1 d with
          | none => simp
          | some v =>
            obtain ⟨r, hr, hv⟩ := mapGet_mem hget
            simp only [Option.getD_some]
            exact hv ▸ (hkept r hr).2.1.le
        rw [heq]
        refine ⟨homeness_unstable hh hq, ?_, min_le_left _ _⟩
        simp only [lt_min_iff]
        exact ⟨by norm_num, by linarith⟩
    · exact hkept _ hp
  case _ hh =>
    exact hkept _ hp

theorem inv_decay (s : State) (dt : ℚ) (hdt : 0 ≤ dt) (hs : Inv s) : Inv (decay s dt) := by
  intro p hp
  simp only [decay, List.mem_filterMap] at hp
  obtain ⟨q, hq, hfq⟩ := hp
  obtain ⟨hkey, hpos, hle⟩ := hs q hq
  by_cases hlt : max 0 (q.2 - decayRate * dt) < 1/100
  · rw [if_pos hlt] at hfq
    cases hfq
  · rw [if_neg hlt] at hfq
    injection hfq with e
    rw [← e]
    refine ⟨hkey, ?_, ?_⟩
    · calc (0:ℚ) < 1/100 := by norm_num
        _ ≤ max 0 (q.2 - decayRate * dt) := not_lt.mp hlt
    · refine max_le (by norm_num) ?_
      have hmul : 0 ≤ decayRate * dt := mul_nonneg (by norm_num [decayRate]) hdt
      linarith

theorem inv_foldl (ops : List Op) (s : State) (hs : Inv s)
    (h : ∀ op ∈ ops, opOk op = true) : Inv (ops.foldl runOp s) := by
  induction ops generalizing s with
  | nil => exact hs
  | cons op rest ih =>
    simp only [List.foldl_cons]
    refine ih _ ?_ (fun o ho => h o (List.mem_cons_of_mem _ ho))
    cases op with
    | play d => exact inv_playNote s d hs
    | tick dt =>
      have hop := h (Op.tick dt) (List.mem_cons_self _ _)
      simp only [opOk, decide_eq_true_eq] at hop
      exact inv_decay s dt hop hs

theorem inv_run (ops : List Op) (h : ∀ op ∈ ops, opOk op = true) : Inv (run ops) := by
  unfold run
  refine inv_foldl ops createInitialState ?_ h
  intro p hp
  simp [createInitialState] at hp

/-! ## Claims about the tension engine -/

/-- C1 (counterexample): the code's `Resolution` event carries no amount.
With tension 0.6 stored on degree 7 the call `playNote(state, 1)` returns
the event `{from: 7, to: 1}` and nothing else; the identical event is
returned when the stored tension is 0.3 instead, so no component of the
returned value is the released amount 0.6 claimed by the spec. -/
theorem C1_no_amount_counterexample :
    (playNote stateT7 1).2 = some ⟨7, 1⟩ ∧
    (playNote stateT7small 1).2 = some ⟨7, 1⟩ := by
  constructor <;>
    norm_num [playNote, resolvePass, resolves, resolvesTo, homeness, stateT7, stateT7small]

/-- C1 (amended): with tension 0.6 stored on degree 7 and the code's rule
7→[1], `playNote(state, 1)` returns the resolution event `{from: 7, to: 1}`
(the event has no amount field and the rule no pull strength — the entry
is deleted outright, releasing the full 0.6), and afterwards the tension
stored on degree 7 is exactly 0 (the entry is gone). -/
theorem C1_resolution_amended :
    playNote stateT7 1 =
      ({ lastNote := some 1, direction := Direction.none, tensions := [] }, some ⟨7, 1⟩) ∧
    (mapGet (playNote stateT7 1).1.tensions 7).getD 0 = 0 := by
  constructor <;>
    norm_num [playNote, resolvePass, resolves, resolvesTo, homeness, mapGet, stateT7]

/-- C4 (counterexample): with tension stored on both 7 and 6 (rules 7→[1]
and 6→[5,1]), `playNote(state, 1)` deletes both entries but its return
value — the single `Resolution | null` — is only `{from: 6, to: 1}`, the
last matching entry in map order: one event per released degree is not
produced, and no event naming degree 7 is returned. -/
theorem C4_single_event_counterexample :
    (playNote stateT76 1).1.tensions = [] ∧
    (playNote stateT76 1).2 = some ⟨6, 1⟩ := by
  constructor <;>
    norm_num [playNote, resolvePass, resolves, resolvesTo, homeness, stateT76]

/-- C4 (amended): one `playNote` call removes every tense entry whose
resolution targets include the played degree, but emits at most one
resolution event: the one for the last matching entry in map insertion
order. -/
theorem C4_release_all_amended (s : State) (d : Nat) :
    (∀ p ∈ s.tensions, resolves d p = true → p ∉ (playNote s d).1.tensions) ∧
    (playNote s d).2 =
      ((s.tensions.filter (fun p => resolves d p)).getLast?).map
        (fun p => Resolution.mk p.1 d) := by
  constructor
  · intro p _ hres hmem
    simp only [playNote] at hmem
    have hfilter : p ∉ (resolvePass d s.tensions).1 := by
      rw [resolvePass_eq]
      intro hcon
      have := (List.mem_filter.mp hcon).2
      rw [hres] at this
      exact Bool.false_ne_true (by simpa using this.symm)
    split at hmem
    case _ q hh =>
      split_ifs at hmem with hq
      · rcases mapSet_mem hmem with hmem2 | heq
        · exact hfilter hmem2
        · have hp1 : p.1 = d := by rw [heq]
          have hcont : (resolvesTo d).contains d = true := by
            have := Bool.and_elim_left (by rw [← resolves]; exact hres)
            rwa [hp1] at this
          rw [not_self_resolvesTo] at hcont
          cases hcont
      · exact hfilter hmem
    case _ hh =>
      exact hfilter hmem
  · simp only [playNote]
    rw [resolvePass_eq]

/-- C4 (witness): the amended theorem applied to the two-tension state. -/
theorem C4_release_all_witness :
    ((7, (3:ℚ)/5) ∉ (playNote stateT76 1).1.tensions ∧
     (playNote stateT76 1).2 = some ⟨6, 1⟩) :=
  ⟨(C4_release_all_amended stateT76 1).1 (7, (3:ℚ)/5) (by simp [stateT76])
      (by norm_num [resolves, resolvesTo]),
   ((C4_release_all_amended stateT76 1).2).trans
      (by norm_num [resolves, resolvesTo, stateT76])⟩

/-- C7 (counterexample): the code's `playNote` is a total function — out
of range degrees hit no assertion and abort nothing.  At degree 9 it
returns normally: the `undefined` homeness lookup makes the tension
branch a no-op, no rule targets 9, and the call completes with no
resolution. -/
theorem C7_no_abort_counterexample :
    playNote createInitialState 9 =
      ({ lastNote := some 9, direction := Direction.none, tensions := [] }, Option.none) := by
  norm_num [playNote, createInitialState, resolvePass, homeness]

/-- C7 (amended): a degree outside 1..7 passed to `playNote` is silently
absorbed rather than rejected: no tension is added or resolved (only the
`lastNote`/`direction` bookkeeping runs) and no resolution event is
returned. -/
theorem C7_out_of_range_absorbed (s : State) (d : Nat) (h : d = 0 ∨ 8 ≤ d) :
    (playNote s d).1.tensions = s.tensions ∧ (playNote s d).2 = Option.none := by
  simp only [playNote, resolvePass_out h, homeness_out h]
  exact ⟨trivial, trivial⟩

/-- C7 (witness): the amended theorem applied at degree 9 to a state with
tension stored on degree 7. -/
theorem C7_out_of_range_witness :
    (9 = 0 ∨ 8 ≤ 9) ∧
    (playNote stateT7 9).1.tensions = stateT7.tensions ∧
    (playNote stateT7 9).2 = Option.none :=
  ⟨Or.inr (by norm_num),
   (C7_out_of_range_absorbed stateT7 9 (Or.inr (by norm_num))).1,
   (C7_out_of_range_absorbed stateT7 9 (Or.inr (by norm_num))).2⟩

/-- C9 (counterexample): `decay(state, 0)` is not the identity on every
state: an entry whose stored tension is below the 0.01 removal threshold
(here 0.005 on degree 7) is deleted even though no time passed. -/
theorem C9_decay_zero_counterexample :
    (decay stateT7eps 0).tensions = [] ∧ decay stateT7eps 0 ≠ stateT7eps := by
  constructor
  · norm_num [decay, decayRate, stateT7eps]
  · intro hcontra
    have h2 := congrArg State.tensions hcontra
    norm_num [decay, decayRate, stateT7eps] at h2

/-- C9 (amended): on every state all of whose stored tensions are at
least the 0.01 removal threshold — which includes every state reachable
by the engine — `decay(state, 0)` changes nothing: no value is rescaled
and no entry is removed. -/
theorem C9_decay_zero_amended (s : State) (h : ∀ p ∈ s.tensions, 1/100 ≤ p.2) :
    decay s 0 = s := by
  have key : ∀ l : List (Nat × ℚ), (∀ p ∈ l, 1/100 ≤ p.2) →
      l.filterMap (fun p =>
        let newTension := max 0 (p.2 - decayRate * 0)
        if newTension < 1/100 then Option.none else some (p.1, newTension)) = l := by
    intro l hl
    induction l with
    | nil => rfl
    | cons p rest ih =>
      have hp := hl p (List.mem_cons_self _ _)
      have hmax : max 0 (p.2 - decayRate * 0) = p.2 := by
        rw [mul_zero, sub_zero]
        exact max_eq_right (le_trans (by norm_num) hp)
      have hfp : (fun p : Nat × ℚ =>
          let newTension := max 0 (p.2 - decayRate * 0)
          if newTension < 1/100 then Option.none else some (p.1, newTension)) p = some p := by
        simp only [hmax]
        rw [if_neg (not_lt.mpr hp)]
      simp only [List.filterMap_cons, hfp, ih (fun q hq => hl q (List.mem_cons_of_mem _ hq))]
  cases s with
  | mk ln dir tens =>
    simp only [decay, State.mk.injEq]
    refine ⟨trivial, trivial, key tens (by simpa using h)⟩

/-- C9 (witness): the amended theorem applied to a state with tension 0.6
on degree 7. -/
theorem C9_decay_zero_witness :
    (∀ p ∈ stateT7.tensions, 1/100 ≤ p.2) ∧ decay stateT7 0 = stateT7 :=
  ⟨by norm_num [stateT7], C9_decay_zero_amended stateT7 (by norm_num [stateT7])⟩

/-- C3: for every sequence of `playNote` and `decay` calls from the
initial empty state (each decay tick carrying a non-negative elapsed
time), every stored per-degree tension lies in [0, 1] and the derived
`getTotalTension` lies in [0, 1]. -/
theorem C3_clamp_invariant (ops : List Op) (h : ∀ op ∈ ops, opOk op = true) :
    (∀ p ∈ (run ops).tensions, 0 ≤ p.2 ∧ p.2 ≤ 1) ∧
    0 ≤ getTotalTension (run ops) ∧ getTotalTension (run ops) ≤ 1 := by
  have hinv := inv_run ops h
  refine ⟨fun p hp => ⟨(hinv p hp).2.1.le, (hinv p hp).2.2⟩, ?_, min_le_left _ _⟩
  unfold getTotalTension
  refine le_min (by norm_num) (div_nonneg (List.sum_nonneg ?_) (by norm_num))
  intro x hx
  obtain ⟨p, hp, rfl⟩ := List.mem_map.mp hx
  exact (hinv p hp).2.1.le

/-- C3 (witness): the clamp invariant at a concrete call sequence. -/
theorem C3_clamp_invariant_witness :
    (∀ op ∈ [Op.play 7, Op.play 7, Op.tick 2], opOk op = true) ∧
    ((∀ p ∈ (run [Op.play 7, Op.play 7, Op.tick 2]).tensions, 0 ≤ p.2 ∧ p.2 ≤ 1) ∧
     0 ≤ getTotalTension (run [Op.play 7, Op.play 7, Op.tick 2]) ∧
     getTotalTension (run [Op.play 7, Op.play 7, Op.tick 2]) ≤ 1) :=
  ⟨by decide, C3_clamp_invariant _ (by decide)⟩

/-- C10: starting from the initial empty state, after any sequence of
`playNote` calls with degrees in 1..7 and `decay` ticks with non-negative
elapsed time, the tensions map only contains keys among {2, 4, 6, 7} (the
degrees with homeness below 0.5 — degrees 1, 3 and 5 never accumulate
tension) and every stored value lies in (0, 1]. -/
theorem C10_unstable_keys_invariant (ops : List Op) (h : ∀ op ∈ ops, opOk17 op = true) :
    ∀ p ∈ (run ops).tensions,
      (p.1 = 2 ∨ p.1 = 4 ∨ p.1 = 6 ∨ p.1 = 7) ∧ 0 < p.2 ∧ p.2 ≤ 1 := by
  refine inv_run ops (fun op ho => ?_)
  have hop := h op ho
  cases op with
  | play d => rfl
  | tick dt => simpa [opOk, opOk17] using hop

/-- C10 (witness): the key-set invariant at a concrete call sequence. -/
theorem C10_unstable_keys_witness :
    (∀ op ∈ [Op.play 7, Op.play 4, Op.tick 1], opOk17 op = true) ∧
    (∀ p ∈ (run [Op.play 7, Op.play 4, Op.tick 1]).tensions,
      (p.1 = 2 ∨ p.1 = 4 ∨ p.1 = 6 ∨ p.1 = 7) ∧ 0 < p.2 ∧ p.2 ≤ 1) :=
  ⟨by decide, C10_unstable_keys_invariant _ (by decide)⟩

/-! ## Claim about the dwell detector -/

lemma keyOffsetOf_C : keyOffsetOf "C" = 0 := rfl

lemma none_eq_some_false {α : Type} (a : α) : ((Option.none : Option α) = some a) = False := by
  simp

lemma cons_eq_nil_false {α : Type} (a : α) (l : List α) : ((a :: l : List α) = []) = False := by
  simp

lemma range7_eq : List.range 7 = [0, 1, 2, 3, 4, 5, 6] := rfl

/-- C2 (the code at a failing input): holding the same in-key degree 7
continuously — frames at 0, 150, 160 and 310 ms with the mapped degree
constant — produces TWO tension-engine activations (at 150 ms and again
at 310 ms), although the signal never leaves the degree: after firing,
the cleared candidate differs from the still-held degree on the next
frame, so the dwell timer re-arms and a sustained tone re-triggers every
threshold interval, contradicting the code's own comment ("require
leaving and coming back") and the claim.  The sub-threshold part of the
claim does hold: frames at 0, 100 and 140 ms produce zero activations. -/
theorem C2_dwell_retrigger_bug :
    (runDwell [(0, some 7), (150, some 7), (160, some 7), (310, some 7)]).2 = 2 ∧
    (runDwell [(0, some 7), (100, some 7), (140, some 7)]).2 = 0 := by
  have ha : dwellStep initDwell 0 (some 7) = (⟨some 7, 0⟩, false) := by
    norm_num [dwellStep, initDwell, DWELL_THRESHOLD_MS, none_eq_some_false]
  have hb : dwellStep ⟨some 7, 0⟩ 150 (some 7) = (⟨Option.none, 0⟩, true) := by
    norm_num [dwellStep, DWELL_THRESHOLD_MS]
  have hc : dwellStep ⟨Option.none, 0⟩ 160 (some 7) = (⟨some 7, 160⟩, false) := by
    norm_num [dwellStep, DWELL_THRESHOLD_MS, none_eq_some_false]
  have hd : dwellStep ⟨some 7, 160⟩ 310 (some 7) = (⟨Option.none, 160⟩, true) := by
    norm_num [dwellStep, DWELL_THRESHOLD_MS]
  have he : dwellStep ⟨some 7, 0⟩ 100 (some 7) = (⟨some 7, 0⟩, false) := by
    norm_num [dwellStep, DWELL_THRESHOLD_MS]
  have hf : dwellStep ⟨some 7, 0⟩ 140 (some 7) = (⟨some 7, 0⟩, false) := by
    norm_num [dwellStep, DWELL_THRESHOLD_MS]
  constructor
  · norm_num [runDwell, ha, hb, hc, hd]
  · norm_num [runDwell, ha, he, hf]

/-! ## Claim about the chord classifier -/

lemma degreeScores_I : degreeScores "C" hpcpI = [0, 1, 0, 1, 0, 1, 0, 0] := by
  norm_num [degreeScores, keyOffsetOf_C, majorScaleIntervals, hpcpI, List.range', List.getD]

lemma degreeScores_V : degreeScores "C" hpcpV = [0, 0, 1, 0, 0, 1, 0, 1] := by
  norm_num [degreeScores, keyOffsetOf_C, majorScaleIntervals, hpcpV, List.range', List.getD]

lemma degreeScores_zero : degreeScores "C" hpcpZero = [0, 0, 0, 0, 0, 0, 0, 0] := by
  norm_num [degreeScores, keyOffsetOf_C, majorScaleIntervals, hpcpZero, List.range', List.getD]

lemma matchTemplate_I_none :
    matchChordTemplate (degreeScores "C" hpcpI) Option.none = some ⟨"I", 1, "major"⟩ := by
  rw [degreeScores_I]
  norm_num [matchChordTemplate, templateScore, bestResult, chordTemplates,
    HYSTERESIS_BONUS, List.range', List.getD, List.filter, List.contains,
    none_eq_some_false, cons_eq_nil_false]

lemma matchTemplate_zero_none :
    matchChordTemplate (degreeScores "C" hpcpZero) Option.none = Option.none := by
  rw [degreeScores_zero]
  norm_num [matchChordTemplate, templateScore, bestResult, chordTemplates,
    HYSTERESIS_BONUS, List.range', List.getD, List.filter, List.contains,
    none_eq_some_false, cons_eq_nil_false]

lemma matchTemplate_V_someI :
    matchChordTemplate (degreeScores "C" hpcpV) (some "I") = some ⟨"V", 1, "major"⟩ := by
  rw [degreeScores_V]
  norm_num [matchChordTemplate, templateScore, bestResult, chordTemplates,
    HYSTERESIS_BONUS, List.range', List.getD, List.filter, List.contains,
    cons_eq_nil_false,
    (by decide : (("I" : String) = "ii") = False),
    (by decide : (("I" : String) = "iii") = False),
    (by decide : (("I" : String) = "IV") = False),
    (by decide : (("I" : String) = "V") = False),
    (by decide : (("I" : String) = "vi") = False),
    (by decide : (("I" : String) = "vii°") = False),
    (by decide : (("I" : String) = "V7") = False)]

lemma degreesFromProbs_I : degreesFromProbs [9/10, 0, 9/10, 0, 9/10, 0, 0] = [1, 3, 5] := by
  norm_num [degreesFromProbs, range7_eq, List.filterMap_cons,
    (rfl : ([9/10, 0, 9/10, 0, 9/10, 0, 0] : List ℚ).getD 0 0 = 9/10),
    (rfl : ([9/10, 0, 9/10, 0, 9/10, 0, 0] : List ℚ).getD 1 0 = 0),
    (rfl : ([9/10, 0, 9/10, 0, 9/10, 0, 0] : List ℚ).getD 2 0 = 9/10),
    (rfl : ([9/10, 0, 9/10, 0, 9/10, 0, 0] : List ℚ).getD 3 0 = 0),
    (rfl : ([9/10, 0, 9/10, 0, 9/10, 0, 0] : List ℚ).getD 4 0 = 9/10),
    (rfl : ([9/10, 0, 9/10, 0, 9/10, 0, 0] : List ℚ).getD 5 0 = 0),
    (rfl : ([9/10, 0, 9/10, 0, 9/10, 0, 0] : List ℚ).getD 6 0 = 0)]

lemma degreesFromProbs_V : degreesFromProbs [0, 9/10, 0, 0, 9/10, 0, 9/10] = [2, 5, 7] := by
  norm_num [degreesFromProbs, range7_eq, List.filterMap_cons,
    (rfl : ([0, 9/10, 0, 0, 9/10, 0, 9/10] : List ℚ).getD 0 0 = 0),
    (rfl : ([0, 9/10, 0, 0, 9/10, 0, 9/10] : List ℚ).getD 1 0 = 9/10),
    (rfl : ([0, 9/10, 0, 0, 9/10, 0, 9/10] : List ℚ).getD 2 0 = 0),
    (rfl : ([0, 9/10, 0, 0, 9/10, 0, 9/10] : List ℚ).getD 3 0 = 0),
    (rfl : ([0, 9/10, 0, 0, 9/10, 0, 9/10] : List ℚ).getD 4 0 = 9/10),
    (rfl : ([0, 9/10, 0, 0, 9/10, 0, 9/10] : List ℚ).getD 5 0 = 0),
    (rfl : ([0, 9/10, 0, 0, 9/10, 0, 9/10] : List ℚ).getD 6 0 = 9/10)]

set_option maxRecDepth 4000 in
lemma matchPattern_I : matchDegreePattern [1, 3, 5] = some ⟨"I", "major"⟩ := by
  norm_num [matchDegreePattern, patternScore, CHORD_PATTERNS, joinDash,
    List.filter, List.contains, cons_eq_nil_false]

set_option maxRecDepth 4000 in
lemma matchPattern_V : matchDegreePattern [2, 5, 7] = some ⟨"V", "major"⟩ := by
  norm_num [matchDegreePattern, patternScore, CHORD_PATTERNS, joinDash,
    List.filter, List.contains, cons_eq_nil_false]

lemma stepT_I_0 : detectWithTemplates "C" hpcpI initChordState =
    ⟨Option.none, Option.none, 0, some "I", 1⟩ := by
  simp only [detectWithTemplates, initChordState, matchTemplate_I_none]
  decide

lemma stepT_I_1 : detectWithTemplates "C" hpcpI ⟨Option.none, Option.none, 0, some "I", 1⟩ =
    ⟨Option.none, Option.none, 0, some "I", 2⟩ := by
  simp only [detectWithTemplates, matchTemplate_I_none]
  decide

lemma stepT_I_2 : detectWithTemplates "C" hpcpI ⟨Option.none, Option.none, 0, some "I", 2⟩ =
    ⟨Option.none, Option.none, 0, some "I", 3⟩ := by
  simp only [detectWithTemplates, matchTemplate_I_none]
  decide

lemma stepT_I_3 : detectWithTemplates "C" hpcpI ⟨Option.none, Option.none, 0, some "I", 3⟩ =
    ⟨Option.none, Option.none, 0, some "I", 4⟩ := by
  simp only [detectWithTemplates, matchTemplate_I_none]
  decide

lemma stepT_I_4 : detectWithTemplates "C" hpcpI ⟨Option.none, Option.none, 0, some "I", 4⟩ =
    ⟨Option.none, Option.none, 0, some "I", 5⟩ := by
  simp only [detectWithTemplates, matchTemplate_I_none]
  decide

lemma stepT_I_5est : detectWithTemplates "C" hpcpI ⟨Option.none, Option.none, 0, some "I", 5⟩ =
    ⟨some "I", some "major", 1, Option.none, 0⟩ := by
  simp only [detectWithTemplates, matchTemplate_I_none]
  decide

lemma stepT_zero_5 : detectWithTemplates "C" hpcpZero ⟨Option.none, Option.none, 0, some "I", 5⟩ =
    ⟨Option.none, Option.none, 0, some "I", 4⟩ := by
  simp only [detectWithTemplates, matchTemplate_zero_none]
  decide

lemma stepT_V_estI : detectWithTemplates "C" hpcpV ⟨some "I", some "major", 3, Option.none, 0⟩ =
    ⟨some "I", some "major", 3, some "V", 1⟩ := by
  simp only [detectWithTemplates, matchTemplate_V_someI]
  decide

lemma stepM_I_est : detectWithModel [9/10, 0, 9/10, 0, 9/10, 0, 0]
    ⟨Option.none, Option.none, 0, some "I", 6⟩ =
    ⟨some "I", some "major", 1, Option.none, 0⟩ := by
  simp only [detectWithModel, degreesFromProbs_I, matchPattern_I]
  decide

lemma stepM_V_estI : detectWithModel [0, 9/10, 0, 0, 9/10, 0, 9/10]
    ⟨some "I", some "major", 3, Option.none, 0⟩ =
    ⟨some "I", some "major", 3, some "V", 1⟩ := by
  simp only [detectWithModel, degreesFromProbs_V, matchPattern_V]
  decide

set_option maxRecDepth 4000 in
/-- C5 (counterexample): in the template path, `currentChord` can switch
to a new non-null label without that label having matched for
establishThreshold (= 6) CONSECUTIVE frames: after five I-chord frames,
one silent frame (matching nothing, as the third conjunct shows) merely
decrements the candidate counter from 5 to 4 instead of resetting it, so
two further I-frames — a consecutive run of only 2 — establish the chord
(first conjunct); after seven frames it was still null (second
conjunct). -/
theorem C5_hysteresis_counterexample :
    (runTemplates "C" [hpcpI, hpcpI, hpcpI, hpcpI, hpcpI, hpcpZero, hpcpI, hpcpI]).currentChord
      = some "I" ∧
    (runTemplates "C" [hpcpI, hpcpI, hpcpI, hpcpI, hpcpI, hpcpZero, hpcpI]).currentChord
      = Option.none ∧
    matchChordTemplate (degreeScores "C" hpcpZero)
      (runTemplates "C" [hpcpI, hpcpI, hpcpI, hpcpI, hpcpI]).currentChord = Option.none := by
  have h5 : runTemplates "C" [hpcpI, hpcpI, hpcpI, hpcpI, hpcpI] =
      ⟨Option.none, Option.none, 0, some "I", 5⟩ := by
    simp only [runTemplates, List.foldl_cons, List.foldl_nil,
      stepT_I_0, stepT_I_1, stepT_I_2, stepT_I_3, stepT_I_4]
  have h7 : runTemplates "C" [hpcpI, hpcpI, hpcpI, hpcpI, hpcpI, hpcpZero, hpcpI] =
      ⟨Option.none, Option.none, 0, some "I", 5⟩ := by
    simp only [runTemplates, List.foldl_cons, List.foldl_nil,
      stepT_I_0, stepT_I_1, stepT_I_2, stepT_I_3, stepT_I_4, stepT_zero_5]
  have h8 : runTemplates "C" [hpcpI, hpcpI, hpcpI, hpcpI, hpcpI, hpcpZero, hpcpI, hpcpI] =
      ⟨some "I", some "major", 1, Option.none, 0⟩ := by
    simp only [runTemplates, List.foldl_cons, List.foldl_nil,
      stepT_I_0, stepT_I_1, stepT_I_2, stepT_I_3, stepT_I_4, stepT_zero_5, stepT_I_5est]
  refine ⟨?_, ?_, ?_⟩
  · rw [h8]
  · rw [h7]
  · rw [h5]
    exact matchTemplate_zero_none

/-- C5 (amended): in both classifier paths, `currentChord` only changes
to a new non-null label when that label is the standing candidate and its
`candidateFrames` counter — which no-match frames decrement rather than
reset — reaches establishThreshold; and a single frame matching a
different label amid an established chord (no pending candidate for that
label) never changes `currentChord`. -/
theorem C5_hysteresis_amended (key : String) (hpcp probs : List ℚ) (s : ChordState) :
    (∀ X, (detectWithTemplates key hpcp s).currentChord = some X →
        s.currentChord ≠ some X →
        s.candidateChord = some X ∧ FRAMES_TO_ESTABLISH ≤ s.candidateFrames + 1) ∧
    (∀ X, (detectWithModel probs s).currentChord = some X →
        s.currentChord ≠ some X →
        s.candidateChord = some X ∧ FRAMES_TO_ESTABLISH ≤ s.candidateFrames + 1) ∧
    (∀ r, matchChordTemplate (degreeScores key hpcp) s.currentChord = some r →
        s.candidateChord ≠ some r.name → ∀ Y, s.currentChord = some Y → r.name ≠ Y →
        (detectWithTemplates key hpcp s).currentChord = some Y) ∧
    (∀ r, matchDegreePattern (degreesFromProbs probs) = some r →
        s.candidateChord ≠ some r.name → ∀ Y, s.currentChord = some Y → r.name ≠ Y →
        (detectWithModel probs s).currentChord = some Y) := by
  refine ⟨?_, ?_, ?_, ?_⟩
  · intro X hnew hne
    unfold detectWithTemplates at hnew
    cases hm : matchChordTemplate (degreeScores key hpcp) s.currentChord with
    | none =>
      rw [hm] at hnew
      simp only [templatesHysteresis] at hnew
      split_ifs at hnew with hzero
      exact absurd hnew hne
    | some m =>
      rw [hm] at hnew
      simp only [templatesHysteresis] at hnew
      split_ifs at hnew with hcand hest hdiff
      · injection hnew with e
        subst e
        exact ⟨hcand, hest⟩
      · exact absurd hnew hne
      · exact absurd hnew hne
      · exact absurd hnew hne
  · intro X hnew hne
    unfold detectWithModel at hnew
    cases hm : matchDegreePattern (degreesFromProbs probs) with
    | none =>
      rw [hm] at hnew
      simp only [modelHysteresis] at hnew
      split_ifs at hnew with hzero
      exact absurd hnew hne
    | some m =>
      rw [hm] at hnew
      simp only [modelHysteresis] at hnew
      split_ifs at hnew with hcand hest hdiff
      · injection hnew with e
        subst e
        rcases hest with h | h
        · exact ⟨hcand, h⟩
        · exact absurd h hne
      · exact absurd hnew hne
      · exact absurd hnew hne
      · exact absurd hnew hne
  · intro r hm hcand Y hY hneq
    unfold detectWithTemplates
    rw [hm]
    simp only [templatesHysteresis]
    have hdiff : s.currentChord ≠ some r.name := by
      rw [hY]
      exact fun hcon => hneq (Option.some_inj.mp hcon).symm
    rw [if_neg hcand, if_pos hdiff]
    exact hY
  · intro r hm hcand Y hY hneq
    unfold detectWithModel
    rw [hm]
    simp only [modelHysteresis]
    have hdiff : s.currentChord ≠ some r.name := by
      rw [hY]
      exact fun hcon => hneq (Option.some_inj.mp hcon).symm
    rw [if_neg hcand, if_pos hdiff]
    exact hY

set_option maxRecDepth 4000 in
/-- C5 (witness): the amended theorem applied to concrete scenarios of
both classifier paths: a matured I-chord candidate establishing on a
matching frame, and a single V-chord frame leaving an established I
untouched. -/
theorem C5_hysteresis_witness :
    ((some "I" : Option String) = some "I" ∧ FRAMES_TO_ESTABLISH ≤ 5 + 1) ∧
    ((some "I" : Option String) = some "I" ∧ FRAMES_TO_ESTABLISH ≤ 6 + 1) ∧
    (detectWithTemplates "C" hpcpV
      ⟨some "I", some "major", 3, Option.none, 0⟩).currentChord = some "I" ∧
    (detectWithModel [0, 9/10, 0, 0, 9/10, 0, 9/10]
      ⟨some "I", some "major", 3, Option.none, 0⟩).currentChord = some "I" :=
  ⟨(C5_hysteresis_amended "C" hpcpI [] ⟨Option.none, Option.none, 0, some "I", 5⟩).1
      "I" (by rw [stepT_I_5est]) (by simp),
   (C5_hysteresis_amended "C" [] [9/10, 0, 9/10, 0, 9/10, 0, 0]
      ⟨Option.none, Option.none, 0, some "I", 6⟩).2.1
      "I" (by rw [stepM_I_est]) (by simp),
   (C5_hysteresis_amended "C" hpcpV []
      ⟨some "I", some "major", 3, Option.none, 0⟩).2.2.1
      ⟨"V", 1, "major"⟩ matchTemplate_V_someI (by simp) "I" rfl (by decide),
   (C5_hysteresis_amended "C" [] [0, 9/10, 0, 0, 9/10, 0, 9/10]
      ⟨some "I", some "major", 3, Option.none, 0⟩).2.2.2
      ⟨"V", "major"⟩ (by rw [degreesFromProbs_V]; exact matchPattern_V)
      (by simp) "I" rfl (by decide)⟩

/-! ## Claims about the pitch mapper -/

/-- C8: every non-finite or non-positive input frequency (zero, negative
values, NaN, and the infinities) makes `hzToPosition` return the neutral
center position with `inKey = true`, `degree = null` and no adjacent
degrees; the function is total, so no error is raised or propagated. -/
theorem C8_neutral_guard (rootHz : ℝ) (hz : JSNum) (h : badHz hz) :
    hzToPosition rootHz hz = neutralPosition := by
  cases hz with
  | nan => rfl
  | posInf => rfl
  | negInf => rfl
  | finite v =>
    simp only [badHz] at h
    simp only [hzToPosition]
    rw [if_pos h]

/-- C8 (witness): the guard at NaN and at the non-positive frequency 0. -/
theorem C8_neutral_guard_witness :
    (badHz JSNum.nan ∧ hzToPosition 440 JSNum.nan = neutralPosition) ∧
    (badHz (JSNum.finite 0) ∧ hzToPosition 440 (JSNum.finite 0) = neutralPosition) :=
  ⟨⟨trivial, C8_neutral_guard 440 JSNum.nan trivial⟩,
   ⟨le_refl 0, C8_neutral_guard 440 (JSNum.finite 0) (le_refl 0)⟩⟩

/-- C6: a frequency exactly one semitone above the configured key's root
(so halfway in semitones between degree 1 at 0 semitones and degree 2 at
2 semitones) maps to a chromatic position: `inKey = false`,
`degree = null`, `adjacentDegrees = [1, 2]`, and the spatial position is
the linear interpolation between the two degrees' canonical positions at
interpolation parameter t = 0.5. -/
theorem C6_chromatic_halfway (root : ℝ) (hroot : 0 < root) :
    hzToPosition root (JSNum.finite (root * (2:ℝ) ^ ((1:ℝ)/12))) =
      { x := (nodePositions 1).x + ((nodePositions 2).x - (nodePositions 1).x) * (1/2),
        y := (nodePositions 1).y + ((nodePositions 2).y - (nodePositions 1).y) * (1/2),
        inKey := false, degree := Option.none, adjacentDegrees := [1, 2] } := by
  have hv : 0 < root * (2:ℝ) ^ ((1:ℝ)/12) :=
    mul_pos hroot (Real.rpow_pos_of_pos (by norm_num) _)
  have hdiv : root * (2:ℝ) ^ ((1:ℝ)/12) / root = (2:ℝ) ^ ((1:ℝ)/12) :=
    mul_div_cancel_left₀ _ (ne_of_gt hroot)
  have hsem : 12 * Real.logb 2 (root * (2:ℝ) ^ ((1:ℝ)/12) / root) = 1 := by
    rw [hdiv, Real.logb_rpow (by norm_num) (by norm_num)]
    norm_num
  have htr1 : jsTrunc ((1:ℝ)/12) = 0 := by
    unfold jsTrunc
    rw [if_pos (by norm_num)]
    exact Int.floor_eq_zero_iff.mpr (Set.mem_Ico.mpr ⟨by norm_num, by norm_num⟩)
  have hm1 : jsMod 1 12 = 1 := by
    unfold jsMod
    rw [htr1]
    norm_num
  have htr13 : jsTrunc (((1:ℝ) + 12)/12) = 1 := by
    unfold jsTrunc
    rw [if_pos (by norm_num)]
    refine Int.floor_eq_iff.mpr ⟨by norm_num, by norm_num⟩
  have hm13 : jsMod (1 + 12) 12 = 1 := by
    unfold jsMod
    rw [htr13]
    norm_num
  have hzip : scaleDegrees.zip (scaleDegrees.rotateLeft 1) =
      [((0, 1), (2, 2)), ((2, 2), (4, 3)), ((4, 3), (5, 4)), ((5, 4), (7, 5)),
       ((7, 5), (9, 6)), ((9, 6), (11, 7)), ((11, 7), (0, 1))] := rfl
  have hbr : findBracket 1 = ((0, 1), (2, 2)) := by
    unfold findBracket
    rw [hzip]
    simp only [List.foldl_cons, List.foldl_nil]
    norm_num
  have hpos : positionFromOctave 1 =
      { x := (nodePositions 1).x + ((nodePositions 2).x - (nodePositions 1).x) * (1/2),
        y := (nodePositions 1).y + ((nodePositions 2).y - (nodePositions 1).y) * (1/2),
        inKey := false, degree := Option.none, adjacentDegrees := [1, 2] } := by
    unfold positionFromOctave
    rw [hbr]
    norm_num [min_def, PitchPosition.mk.injEq]
  simp only [hzToPosition]
  rw [if_neg (not_le.mpr hv), hsem, hm1, hm13, if_neg (by norm_num : ¬ (11.5:ℝ) < 1)]
  exact hpos

/-- C6 (witness): the mapper at root 1 and frequency `2 ^ (1/12)`. -/
theorem C6_chromatic_halfway_witness :
    (0:ℝ) < 1 ∧
    hzToPosition 1 (JSNum.finite (1 * (2:ℝ) ^ ((1:ℝ)/12))) =
      { x := (nodePositions 1).x + ((nodePositions 2).x - (nodePositions 1).x) * (1/2),
        y := (nodePositions 1).y + ((nodePositions 2).y - (nodePositions 1).y) * (1/2),
        inKey := false, degree := Option.none, adjacentDegrees := [1, 2] } :=
  ⟨one_pos, C6_chromatic_halfway 1 one_pos⟩

end Harmonic
